import Mathlib

/-!
Verification of the ip_isr instrument-signature-removal core.

The Python sources under python/lsst/ip/isr are shallowly embedded here:
pixel values are rationals, images are total functions from pixel
coordinates, in-place mutation becomes explicit state passing, and raised
exceptions become Except errors.  External library calls (lsst.afw.math
statistics, lsst.afw.detection footprints, lsst.meas.algorithms
interpolation, lsst.daf.base property lists) are modelled by executable
definitions following their documented behaviour, noted at each definition.
-/

namespace IpIsr

/-! ## Basic list statistics (model of lsst.afw.math makeStatistics) -/

/-- Sum of a list of rationals. -/
def listSum : List ℚ → ℚ
  | [] => 0
  | x :: xs => x + listSum xs

/-- Arithmetic mean of a list of pixel values; models afwMath.MEAN.
An empty list yields 0 (division by zero in ℚ). -/
def meanOf (l : List ℚ) : ℚ := listSum l / l.length

/-- Insert a value into a sorted list, keeping it sorted ascending. -/
def insertSorted (x : ℚ) : List ℚ → List ℚ
  | [] => [x]
  | y :: ys => if x ≤ y then x :: y :: ys else y :: insertSorted x ys

/-- Insertion sort (ascending) of a list of pixel values. -/
def sortAsc : List ℚ → List ℚ
  | [] => []
  | x :: xs => insertSorted x (sortAsc xs)

/-- Median of a list of pixel values; models afwMath.MEDIAN with the
conventional averaging rule for an even count (spec section 4.1). -/
def medianOf (l : List ℚ) : ℚ :=
  let s := sortAsc l
  let n := s.length
  if n % 2 = 1 then s.getD (n / 2) 0
  else (s.getD (n / 2 - 1) 0 + s.getD (n / 2) 0) / 2

/-- Unbiased sample variance of a list of values (spec section 4.1 asks for
the standard unbiased estimators). A list of length at most 1 yields 0. -/
def sampleVar (l : List ℚ) : ℚ :=
  listSum (l.map (fun x => (x - meanOf l) ^ 2)) / (l.length - 1 : ℕ)

/-- One sigma-clipping pass: keep the values whose squared residual from the
mean is at most nSigma^2 times the sample variance (equivalent to
keeping absolute residuals at most nSigma times the standard deviation). -/
def clipOnce (nSigma : ℚ) (l : List ℚ) : List ℚ :=
  l.filter (fun x => decide ((x - meanOf l) ^ 2 ≤ nSigma ^ 2 * sampleVar l))

/-- Iterated sigma clipping: up to nIter passes, stopping early when a pass
excludes no value (spec section 4.1). -/
def clipIter (nSigma : ℚ) : ℕ → List ℚ → List ℚ
  | 0, l => l
  | n + 1, l =>
    let l2 := clipOnce nSigma l
    if l2.length = l.length then l else clipIter nSigma n l2

/-- Iteratively sigma-clipped mean; models afwMath.MEANCLIP, whose default
statistics control is 3 iterations of 3-sigma clipping. -/
def clippedMean (l : List ℚ) (nIter : ℕ) (nSigma : ℚ) : ℚ :=
  meanOf (clipIter nSigma nIter l)

/-! ## Pixel planes and regions (model of afwImage MaskedImage / Box2I) -/

/-- A MaskedImage: co-registered image, mask and variance planes sharing one
coordinate frame (spec section 3).  Planes are total functions; the valid
region is 0 <= x < width, 0 <= y < height. -/
structure MaskedImage where
  width : ℕ
  height : ℕ
  image : ℕ → ℕ → ℚ
  mask : ℕ → ℕ → ℕ
  variance : ℕ → ℕ → ℚ

/-- An integer rectangle with inclusive bounds, as afwGeom.Box2I. -/
structure Box where
  x0 : ℕ
  y0 : ℕ
  x1 : ℕ
  y1 : ℕ
deriving DecidableEq, Repr

/-- Membership of a pixel coordinate in a box (inclusive bounds). -/
def Box.containsPt (b : Box) (x y : ℕ) : Prop :=
  b.x0 ≤ x ∧ x ≤ b.x1 ∧ b.y0 ≤ y ∧ y ≤ b.y1

instance (b : Box) (x y : ℕ) : Decidable (b.containsPt x y) := by
  unfold Box.containsPt; infer_instance

/-- All coordinates of a box, column-major. -/
def boxCoords (b : Box) : List (ℕ × ℕ) :=
  (List.range (b.x1 + 1 - b.x0)).flatMap fun i =>
    (List.range (b.y1 + 1 - b.y0)).map fun j => (b.x0 + i, b.y0 + j)

/-- The pixel values of a plane over a box, in boxCoords order. -/
def regionValues (f : ℕ → ℕ → ℚ) (b : Box) : List ℚ :=
  (boxCoords b).map fun c => f c.1 c.2

/-- Subtraction of a scalar from a MaskedImage, as the afw operator
mi -= offset: every image pixel is decremented, mask and variance are
untouched. -/
def subScalar (mi : MaskedImage) (offset : ℚ) : MaskedImage :=
  { mi with image := fun x y => mi.image x y - offset }

/-! ## Error taxonomy

The source raises pexExcept.LsstException with distinct messages; each
distinct failure is modelled as a distinct error value.  The spec names
them UnknownFitTypeError, UnknownScalingModeError and
UnsupportedOperationError (spec section 7). -/

/-- Failure values raised by the embedded functions. -/
inductive IsrError where
  /-- The invalid-overscan-type raise in overscanCorrection
  and the invalid-scaling raise in flatCorrection. -/
  | unknownFitType
  /-- A not-implemented raise (POLY overscan, fringe correction). -/
  | unsupportedOperation
  /-- The not-implemented raise for an unrecognized flat scaling type. -/
  | unknownScalingMode
  /-- A Python NameError from evaluating an undefined variable. -/
  | nameError
deriving DecidableEq, Repr

/-! ## overscanCorrection (isr.py lines 545-569) -/

/-- Embedding of isr.overscanCorrection.  The overscan pixel values are read
from the exposure image over overscanBBox (shallow view, no deep copy);
MEAN and MEDIAN subtract a single clipped-free statistic from the whole
masked image; POLY raises the not-implemented LsstException; any other
string raises the invalid-overscan-type LsstException.  The
overscanKeyword and polyorder arguments are accepted and unused, as in
the source. -/
def overscanCorrection (exposure : MaskedImage) (overscanBBox : Box)
    (fittype : String) (overscanKeyword : String) (polyorder : ℕ) :
    Except IsrError MaskedImage :=
  let overscanData := regionValues exposure.image overscanBBox
  if fittype = "MEAN" then
    .ok (subScalar exposure (meanOf overscanData))
  else if fittype = "MEDIAN" then
    .ok (subScalar exposure (medianOf overscanData))
  else if fittype = "POLY" then
    .error .unsupportedOperation
  else
    .error .unknownFitType

/-- A concrete 13 x 10 exposure: data region 10 wide filled with 10,
overscan columns 10..12 filled with 2, zero mask, unit variance
(the scenario of tests/test_overscanCorrection.py). -/
def overscanTestExposure : MaskedImage where
  width := 13
  height := 10
  image := fun x _ => if x ≥ 10 then 2 else 10
  mask := fun _ _ => 0
  variance := fun _ _ => 1

/-- The overscan region of overscanTestExposure: columns 10..12. -/
def overscanTestBox : Box := ⟨10, 0, 12, 9⟩

/-! ## flatCorrection (isr.py lines 476-495) -/

/-- All coordinates of a w x h plane, column-major. -/
def gridCoords (w h : ℕ) : List (ℕ × ℕ) :=
  (List.range w).flatMap fun x => (List.range h).map fun y => (x, y)

/-- The pixel values of the image plane of a MaskedImage. -/
def imageValues (mi : MaskedImage) : List ℚ :=
  (gridCoords mi.width mi.height).map fun c => mi.image c.1 c.2

/-- Embedding of the flat-scaling block of isr.flatCorrection (lines
479-488): afwMath.MEAN for MEAN, afwMath.MEDIAN for MEDIAN (both
unclipped statistics over the whole flat image), the user scaling
verbatim for USER, and the not-implemented LsstException otherwise. -/
def flatScalingOf (flat : MaskedImage) (scalingtype : String) (scaling : ℚ) :
    Except IsrError ℚ :=
  if scalingtype = "MEAN" then .ok (meanOf (imageValues flat))
  else if scalingtype = "MEDIAN" then .ok (medianOf (imageValues flat))
  else if scalingtype = "USER" then .ok scaling
  else .error .unknownScalingMode

/-- The afw operation mi.scaledDivides(c, rhs): every image pixel is divided
by c times the corresponding rhs pixel; the variance plane is divided by
the square of that factor (first-order propagation, ignoring the
calibration frame's own variance, the policy choice the spec leaves
open); the mask is untouched. -/
def scaledDivides (mi : MaskedImage) (c : ℚ) (rhs : MaskedImage) :
    MaskedImage :=
  { mi with
    image := fun x y => mi.image x y / (c * rhs.image x y)
    variance := fun x y => mi.variance x y / (c * rhs.image x y) ^ 2 }

/-- Embedding of isr.flatCorrection: compute flatscaling, then
mi.scaledDivides(1/flatscaling, flat). -/
def flatCorrection (exposure flat : MaskedImage) (scalingtype : String)
    (scaling : ℚ) : Except IsrError MaskedImage :=
  match flatScalingOf flat scalingtype scaling with
  | .error e => .error e
  | .ok flatscaling => .ok (scaledDivides exposure (1 / flatscaling) flat)

/-- A flat frame on which clipped and unclipped means differ: an 11 x 1
image holding ten pixels of 1 and one pixel of 12.  Its plain mean is 2;
3-sigma clipping excludes the 12, leaving a clipped mean of 1. -/
def flatCexFlat : MaskedImage where
  width := 11
  height := 1
  image := fun x _ => if x = 10 then 12 else 1
  mask := fun _ _ => 0
  variance := fun _ _ => 1

/-! ## createPsf and interpolateDefectList (isr.py lines 47-50, 282-287) -/

/-- Python int(): truncation of a rational toward zero. -/
def pyInt (q : ℚ) : ℤ := q.num.tdiv q.den

/-- Model of the PSF produced by isr.createPsf.  The size and fwhm of the
requested DoubleGaussian kernel are recorded; the Gaussian profile
itself is internal to the external afwDetection.createPsf factory and is
not needed by any claim. -/
structure Psf where
  ksize : ℤ
  fwhm : ℚ
deriving DecidableEq, Repr

/-- Embedding of isr.createPsf: ksize = 4*int(fwhm) + 1 on each side. -/
def createPsf (fwhm : ℚ) : Psf :=
  { ksize := 4 * pyInt fwhm + 1, fwhm := fwhm }

/-- The single call isr.interpolateDefectList makes into the external
lsst.meas.algorithms.interpolateOverDefects: the PSF, the one fallback
scalar shared by the whole call, the defect list and the target image. -/
structure InterpolateCall where
  psf : Psf
  fallbackValue : ℚ
  defects : List Box
  target : MaskedImage

/-- Embedding of isr.interpolateDefectList: build the PSF from fwhm; when no
fallbackValue is supplied take afwMath MEANCLIP (3 iterations of 3-sigma
clipping, no mask rejection) of the whole image plane; then issue one
interpolateOverDefects call carrying that single fallback scalar. -/
def interpolateDefectList (exposure : MaskedImage) (defectList : List Box)
    (fwhm : ℚ) (fallbackValue : Option ℚ) : InterpolateCall :=
  let psf := createPsf fwhm
  let fb := match fallbackValue with
    | some v => v
    | none => clippedMean (imageValues exposure) 3 3
  { psf := psf, fallbackValue := fb, defects := defectList, target := exposure }

/-- The fallback the claim describes, written from the spec's words: the
clipped mean of the image plane excluding the pixels whose mask
intersects the given reject bits (defect/bad/saturated). -/
def claimFallbackExcludingMasked (mi : MaskedImage) (rejectBits : ℕ) : ℚ :=
  clippedMean (((gridCoords mi.width mi.height).filter
    (fun c => mi.mask c.1 c.2 &&& rejectBits = 0)).map
      (fun c => mi.image c.1 c.2)) 3 3

/-- A 2 x 2 exposure: three pixels of 0 and one pixel of 4, the pixel of 4
carrying mask bit 1.  The code's fallback (no mask exclusion) is 1; the
claim's fallback (excluding the masked pixel) is 0. -/
def interpCexExposure : MaskedImage where
  width := 2
  height := 2
  image := fun x y => if x = 1 ∧ y = 1 then 4 else 0
  mask := fun x y => if x = 1 ∧ y = 1 then 1 else 0
  variance := fun _ _ => 1

/-! ## Footprint detection (model of lsst.afw.detection) -/

/-- 4-adjacency of two pixel coordinates. -/
def adj4 (p q : ℕ × ℕ) : Bool :=
  (p.1 = q.1 && (p.2 = q.2 + 1 || q.2 = p.2 + 1)) ||
  (p.2 = q.2 && (p.1 = q.1 + 1 || q.1 = p.1 + 1))

/-- Insert a pixel into a component list, merging every component the pixel
touches into one. -/
def addPixel (comps : List (List (ℕ × ℕ))) (p : ℕ × ℕ) :
    List (List (ℕ × ℕ)) :=
  let t := comps.partition (fun c => c.any (fun q => adj4 p q))
  (p :: t.1.flatten) :: t.2

/-- The 4-connected components of a pixel list; each component is one
footprint of afwDetection.makeFootprintSet. -/
def connectedComponents (ps : List (ℕ × ℕ)) : List (List (ℕ × ℕ)) :=
  ps.foldl addPixel []

/-- The in-bounds pixels whose image value reaches the threshold; models
afwDetection.Threshold with positive polarity. -/
def abovePixels (mi : MaskedImage) (threshold : ℚ) : List (ℕ × ℕ) :=
  (gridCoords mi.width mi.height).filter
    (fun c => decide (threshold ≤ mi.image c.1 c.2))

/-- The afw operation setMaskFromFootprint: OR the bitmask into the mask at
every footprint pixel. -/
def setMaskFromFootprint (mask : ℕ → ℕ → ℕ) (fp : List (ℕ × ℕ))
    (bitmask : ℕ) : ℕ → ℕ → ℕ :=
  fun x y => if (x, y) ∈ fp then mask x y ||| bitmask else mask x y

/-- Ascending insertion into a sorted list of naturals. -/
def natInsertSorted (x : ℕ) : List ℕ → List ℕ
  | [] => [x]
  | y :: ys => if x ≤ y then x :: y :: ys else y :: natInsertSorted x ys

/-- Insertion sort (ascending) for lists of naturals. -/
def natSortAsc : List ℕ → List ℕ
  | [] => []
  | x :: xs => natInsertSorted x (natSortAsc xs)

/-- Decompose a sorted list of column indices into maximal consecutive runs
(start, end inclusive), continuing the open run (s, e). -/
def runsAux (s e : ℕ) : List ℕ → List (ℕ × ℕ)
  | [] => [(s, e)]
  | x :: xs => if x = e + 1 then runsAux s x xs else (s, e) :: runsAux x x xs

/-- Maximal consecutive runs of a sorted list of column indices. -/
def runsOf : List ℕ → List (ℕ × ℕ)
  | [] => []
  | x :: xs => runsAux x x xs

/-- The afw helper footprintToBBoxList: cover a footprint by rectangles, here
one box per maximal horizontal run of each row (a covering by boxes that
contain exactly the footprint pixels; the spec does not require the
decomposition to be minimal). -/
def footprintToBBoxList (fp : List (ℕ × ℕ)) : List Box :=
  (natSortAsc ((fp.map Prod.snd).dedup)).flatMap fun y =>
    (runsOf (natSortAsc (((fp.filter (fun c => c.2 = y)).map Prod.fst).dedup))).map
      fun r => ⟨r.1, y, r.2, y⟩

/-! ## saturationDetection (isr.py lines 335-358) -/

/-- Embedding of isr.saturationDetection: find the footprints at or above
the saturation threshold; for each footprint OR the saturation bit into
the mask (when doMask) and collect its bounding-box decomposition.  The
mask-plane name lookup is modelled by passing the resolved bit. -/
def saturationDetection (exposure : MaskedImage) (saturation : ℚ)
    (doMask : Bool) (satBit : ℕ) : MaskedImage × List (List Box) :=
  let fpList := connectedComponents (abovePixels exposure saturation)
  fpList.foldl
    (fun acc fp =>
      let mi := if doMask then
          { acc.1 with mask := setMaskFromFootprint acc.1.mask fp satBit }
        else acc.1
      (mi, acc.2 ++ [footprintToBBoxList fp]))
    (exposure, [])

/-- A 3 x 3 plane with one 2-pixel connected region of value 200 on a
background of 1, zero mask, unit variance. -/
def satTestExposure : MaskedImage where
  width := 3
  height := 3
  image := fun x y => if x = 1 ∧ (y = 1 ∨ y = 2) then 200 else 1
  mask := fun _ _ => 0
  variance := fun _ _ => 1

/-! ## defectListFromMask (isr.py lines 360-383) -/

/-- The in-bounds pixels whose mask value intersects the given bit; models
the source's satmask = mask AND bitmask followed by Threshold(0.5)
footprint detection on the integer mask image (a pixel of the AND image
exceeds 0.5 exactly when the AND is nonzero). -/
def maskSetPixels (mi : MaskedImage) (bit : ℕ) : List (ℕ × ℕ) :=
  (gridCoords mi.width mi.height).filter
    (fun c => decide (mi.mask c.1 c.2 &&& bit ≠ 0))

/-- Growth of a footprint by a radius, modelled from the spec section 4.3
description of the cheap non-circular variant the source requests
(growFootprint with isotropic False): spans are extended by the radius
in x and extra rows are added within the radius in y, clipped to the
plane bounds. -/
def growFootprint (fp : List (ℕ × ℕ)) (r w h : ℕ) : List (ℕ × ℕ) :=
  (gridCoords w h).filter (fun q => fp.any (fun p =>
    p.1 - r ≤ q.1 && q.1 ≤ p.1 + r && p.2 - r ≤ q.2 && q.2 ≤ p.2 + r))

/-- Footprint-to-defect step of defectListFromMask: grow each footprint when
growFootprints is positive, then decompose it into bounding boxes, one
defect per box. -/
def defectsFromPixelList (ps : List (ℕ × ℕ)) (growFootprints w h : ℕ) :
    List Box :=
  (connectedComponents ps).flatMap fun fp =>
    let fpGrow := if growFootprints > 0 then growFootprint fp growFootprints w h
      else fp
    footprintToBBoxList fpGrow

/-- Embedding of isr.defectListFromMask: select the pixels carrying the mask
bit, detect their footprints, optionally grow them, and return one
defect per covering bounding box.  The final INTRP mask-plane
registration in the source touches only the plane-name registry, never
the pixels or the returned list. -/
def defectListFromMask (exposure : MaskedImage) (growFootprints : ℕ)
    (maskBit : ℕ) : List Box :=
  defectsFromPixelList (maskSetPixels exposure maskBit) growFootprints
    exposure.width exposure.height

/-- Assignment of one mask pixel to a bit value, as mask[px, py] = bit. -/
def markMask (m : ℕ → ℕ → ℕ) (px py bit : ℕ) : ℕ → ℕ → ℕ :=
  fun x y => if x = px ∧ y = py then bit else m x y

/-- The all-zero mask plane. -/
def zeroMask : ℕ → ℕ → ℕ := fun _ _ => 0

/-! ## fringeCorrection and pupilCorrection (isr.py lines 572-579) -/

/-- Embedding of isr.fringeCorrection: raises the not-implemented
LsstException unconditionally. -/
def fringeCorrection (exposure fringe : MaskedImage) : Except IsrError Unit :=
  .error .unsupportedOperation

/-- Embedding of isr.pupilCorrection.  The raise statement formats its
message with the name stageName, which is not defined anywhere in scope,
so evaluating the statement raises a Python NameError before the
intended LsstException can be constructed; the call still never returns
normally. -/
def pupilCorrection (exposure pupil : MaskedImage) : Except IsrError Unit :=
  .error .nameError

/-! ## IsrProvenance (calibType.py)

The lsst.daf.base.PropertyList metadata container is modelled as an
association list of string keys and values with dictionary semantics:
assignment replaces the entry for a key, lookup returns the entry for a
key, and two property lists are equal when they agree as key-value maps. -/

/-- A metadata value: a string, an integer, or Python None. -/
inductive PVal where
  | str (s : String)
  | int (n : ℤ)
  | none
deriving DecidableEq, Repr

/-- A PropertyList: keyed entries with dictionary assignment semantics. -/
structure PList where
  entries : List (String × PVal)
deriving DecidableEq, Repr

/-- Lookup of a key. -/
def PList.get (m : PList) (k : String) : Option PVal :=
  (m.entries.find? (fun e => e.1 == k)).map (·.2)

/-- Assignment m[k] = v: replaces any entry for k. -/
def PList.set (m : PList) (k : String) (v : PVal) : PList :=
  ⟨(k, v) :: m.entries.filter (fun e => !(e.1 == k))⟩

/-- Dictionary update: assign every given entry in order, as dict.update. -/
def PList.update (m : PList) (kvs : List (String × PVal)) : PList :=
  kvs.foldl (fun acc kv => acc.set kv.1 kv.2) m

/-- The keys of a PropertyList. -/
def PList.keys (m : PList) : List String := m.entries.map Prod.fst

/-- Value equality of two PropertyLists as key-value maps. -/
def PList.mapEqv (m1 m2 : PList) : Bool :=
  (m1.keys ++ m2.keys).all (fun k => m1.get k == m2.get k)

/-- Equality of two Python sets represented as element lists. -/
def listSetEqv (l1 l2 : List String) : Bool :=
  l1.all (fun a => decide (a ∈ l2)) && l2.all (fun a => decide (a ∈ l1))

/-- Python set(iterable) over a list of names. -/
def pySetOfList (l : List String) : List String := l.dedup

/-- The three ISO-formatted strings datetime.now() contributes to the
CALIBDATE metadata entries. -/
structure DateStamp where
  isoDateTime : String
  isoDate : String
  isoTime : String

/-- An IsrProvenance object: the attributes the class compares in its
requiredAttributes set (the class-level _OBSTYPE, _SCHEMA and _VERSION
constants are shared by every instance and omitted).  The dimensions
attribute is a Python set of dimension names. -/
structure IsrProvenance where
  detectorName : PVal
  detectorSerial : PVal
  instrument : String
  calibType : String
  dimensions : List String
  dataIdList : List (List (String × PVal))
  metadata : PList

/-- The metadata written by IsrCalib.setMetadata on a fresh PropertyList:
OBSTYPE plus the schema and version entries for the IsrProvenance
obstype. -/
def initMetadata : PList :=
  ⟨[("OBSTYPE", .str "IsrProvenance"),
    ("IsrProvenance_SCHEMA", .str "NO SCHEMA"),
    ("IsrProvenance_VERSION", .int 0)]⟩

/-- The supplemental date entries of IsrCalib.updateMetadata when setDate is
requested. -/
def dateEntries (date : DateStamp) : PList :=
  ⟨[("CALIBDATE", .str date.isoDateTime),
    ("CALIB_CREATION_DATE", .str date.isoDate),
    ("CALIB_CREATION_TIME", .str date.isoTime)]⟩

/-- Embedding of IsrProvenance.updateMetadata composed with the base
IsrCalib.updateMetadata it calls: the subclass forces the DETECTOR,
DETECTOR_SERIAL, INSTRUME and calibType keyword entries from the
attributes, the base writes DETECTOR and DETECTOR_SERIAL into the
metadata, builds the supplemental dictionary (date entries when setDate,
then the keywords on top) and merges it into the metadata. -/
def IsrProvenance.updateMetadataOp (p : IsrProvenance) (setDate : Bool)
    (date : DateStamp) (kwargs : PList) : IsrProvenance :=
  let kwargs2 := ((((kwargs.set "DETECTOR" p.detectorName).set
    "DETECTOR_SERIAL" p.detectorSerial).set
    "INSTRUME" (.str p.instrument)).set
    "calibType" (.str p.calibType))
  let md1 := (p.metadata.set "DETECTOR" p.detectorName).set
    "DETECTOR_SERIAL" p.detectorSerial
  let suppl := if setDate then dateEntries date else ⟨[]⟩
  let suppl2 := suppl.update kwargs2.entries
  { p with metadata := md1.update suppl2.entries }

/-- A placeholder date for updateMetadata calls with setDate False, which
never read the date. -/
def noDate : DateStamp := ⟨"", "", ""⟩

/-- Embedding of the IsrProvenance constructor with default arguments, as
cls() in fromDict: unknown instrument and calibType, no detector, empty
dimensions and dataIdList, fresh metadata, and the trailing
updateMetadata(setDate=False) of IsrCalib.__init__. -/
def mkIsrProvenance : IsrProvenance :=
  let p0 : IsrProvenance :=
    { detectorName := PVal.none, detectorSerial := PVal.none,
      instrument := "unknown", calibType := "unknown",
      dimensions := [], dataIdList := [], metadata := initMetadata }
  p0.updateMetadataOp false noDate ⟨[]⟩

/-- The dictionary produced by IsrProvenance.toDict. -/
structure ProvDict where
  metadata : PList
  detectorName : PVal
  detectorSerial : PVal
  instrument : String
  calibType : String
  dimensions : List String
  dataIdList : List (List (String × PVal))

/-- Embedding of IsrProvenance.toDict: first updateMetadata(setDate=True)
mutates the object, then the dictionary is filled from the updated
attributes (the metadata entry aliases the object's own PropertyList).
The pair returned is the mutated object and the dictionary. -/
def IsrProvenance.toDictOp (p : IsrProvenance) (now : DateStamp) :
    IsrProvenance × ProvDict :=
  let p2 := p.updateMetadataOp true now ⟨[]⟩
  (p2,
    { metadata := p2.metadata, detectorName := p2.detectorName,
      detectorSerial := p2.detectorSerial, instrument := p2.instrument,
      calibType := p2.calibType, dimensions := p2.dimensions,
      dataIdList := p2.dataIdList })

/-- Embedding of IsrProvenance.fromDict: construct cls(), merge the
dictionary's metadata entries as keywords of updateMetadata(setDate =
False), assign the attributes, set dimensions from the Python set of the
dictionary's dimension list, and finish with updateMetadata(). -/
def IsrProvenance.fromDictOp (d : ProvDict) : IsrProvenance :=
  let calib0 := mkIsrProvenance
  let calib1 := calib0.updateMetadataOp false noDate d.metadata
  let calib2 := { calib1 with
    detectorName := d.detectorName, detectorSerial := d.detectorSerial,
    instrument := d.instrument, calibType := d.calibType,
    dimensions := pySetOfList d.dimensions, dataIdList := d.dataIdList }
  calib2.updateMetadataOp false noDate ⟨[]⟩

/-- Embedding of IsrCalib.__eq__ for two IsrProvenance objects: every
required attribute compares equal; PropertyList metadata compares as a
key-value map, the dimensions attribute as a set. -/
def provEqv (a b : IsrProvenance) : Bool :=
  (a.detectorName == b.detectorName) &&
  (a.detectorSerial == b.detectorSerial) &&
  PList.mapEqv a.metadata b.metadata &&
  (a.instrument == b.instrument) &&
  (a.calibType == b.calibType) &&
  listSetEqv a.dimensions b.dimensions &&
  (a.dataIdList == b.dataIdList)

/-- The complete keyword dictionary IsrProvenance.updateMetadata passes to
the base updateMetadata: the caller's keywords overridden by the four
attribute-derived entries. -/
def provKwargs (p : IsrProvenance) (kwargs : PList) : PList :=
  (((kwargs.set "DETECTOR" p.detectorName).set
    "DETECTOR_SERIAL" p.detectorSerial).set
    "INSTRUME" (.str p.instrument)).set
    "calibType" (.str p.calibType)

/-- The example timestamp used by the concrete round-trip witness. -/
def sampleDate : DateStamp :=
  ⟨"2024-01-01T00:00:00", "2024-01-01", "00:00:00"⟩

/-! ## Theorems -/

/-! ## Supporting lemmas for the overscan theorems -/

theorem listSum_const (l : List ℚ) (O : ℚ) (h : ∀ v ∈ l, v = O) :
    listSum l = l.length * O := by
  induction l with
  | nil => simp [listSum]
  | cons x xs ih =>
    rw [List.forall_mem_cons] at h
    simp only [listSum, ih h.2, h.1, List.length_cons]
    push_cast
    ring

theorem meanOf_const (l : List ℚ) (O : ℚ) (hne : l ≠ [])
    (h : ∀ v ∈ l, v = O) : meanOf l = O := by
  have hlen0 : l.length ≠ 0 := fun h0 => hne (List.length_eq_zero.mp h0)
  have hlen : (l.length : ℚ) ≠ 0 := Nat.cast_ne_zero.mpr hlen0
  rw [meanOf, listSum_const l O h, mul_comm, mul_div_assoc, div_self hlen, mul_one]

theorem mem_insertSorted (x y : ℚ) (l : List ℚ) :
    y ∈ insertSorted x l ↔ y = x ∨ y ∈ l := by
  induction l with
  | nil => simp [insertSorted]
  | cons z zs ih =>
    by_cases hxz : x ≤ z
    · simp [insertSorted, if_pos hxz]
    · simp only [insertSorted, if_neg hxz, List.mem_cons, ih]
      tauto

theorem length_insertSorted (x : ℚ) (l : List ℚ) :
    (insertSorted x l).length = l.length + 1 := by
  induction l with
  | nil => simp [insertSorted]
  | cons z zs ih =>
    by_cases hxz : x ≤ z
    · simp [insertSorted, if_pos hxz]
    · simp [insertSorted, if_neg hxz, ih]

theorem mem_sortAsc (y : ℚ) (l : List ℚ) : y ∈ sortAsc l ↔ y ∈ l := by
  induction l with
  | nil => simp [sortAsc]
  | cons x xs ih => simp [sortAsc, mem_insertSorted, ih]

theorem length_sortAsc (l : List ℚ) : (sortAsc l).length = l.length := by
  induction l with
  | nil => simp [sortAsc]
  | cons x xs ih => simp [sortAsc, length_insertSorted, ih]

theorem getD_eq_of_const (l : List ℚ) (O : ℚ) (i : ℕ) (hi : i < l.length)
    (h : ∀ v ∈ l, v = O) : l.getD i 0 = O := by
  rw [List.getD_eq_getElem l 0 hi]
  exact h _ (List.getElem_mem hi)

theorem medianOf_const (l : List ℚ) (O : ℚ) (hne : l ≠ [])
    (h : ∀ v ∈ l, v = O) : medianOf l = O := by
  have hs : ∀ v ∈ sortAsc l, v = O := fun v hv => h v ((mem_sortAsc v l).mp hv)
  have hlen : 0 < (sortAsc l).length := by
    rw [length_sortAsc]
    exact List.length_pos.mpr hne
  have hhalf : (sortAsc l).length / 2 < (sortAsc l).length :=
    Nat.div_lt_self hlen (by omega)
  have hhalf2 : (sortAsc l).length / 2 - 1 < (sortAsc l).length := by omega
  unfold medianOf
  by_cases hpar : (sortAsc l).length % 2 = 1
  · rw [if_pos hpar]
    exact getD_eq_of_const _ O _ hhalf hs
  · rw [if_neg hpar, getD_eq_of_const _ O _ hhalf hs,
      getD_eq_of_const _ O _ hhalf2 hs]
    ring

theorem mem_boxCoords (b : Box) (c : ℕ × ℕ) (hc : c ∈ boxCoords b) :
    b.containsPt c.1 c.2 := by
  simp only [boxCoords, List.mem_flatMap, List.mem_map, List.mem_range] at hc
  obtain ⟨i, hi, j, hj, rfl⟩ := hc
  exact ⟨Nat.le_add_right _ _, by omega, Nat.le_add_right _ _, by omega⟩

theorem boxCoords_ne_nil (b : Box) (hx : b.x0 ≤ b.x1) (hy : b.y0 ≤ b.y1) :
    boxCoords b ≠ [] := by
  have : (b.x0, b.y0) ∈ boxCoords b := by
    simp only [boxCoords, List.mem_flatMap, List.mem_map, List.mem_range]
    exact ⟨0, by omega, 0, by omega, by simp⟩
  intro hnil
  rw [hnil] at this
  exact absurd this (List.not_mem_nil _)

theorem regionValues_const (f : ℕ → ℕ → ℚ) (b : Box) (O : ℚ)
    (h : ∀ x y, b.containsPt x y → f x y = O) :
    ∀ v ∈ regionValues f b, v = O := by
  intro v hv
  simp only [regionValues, List.mem_map] at hv
  obtain ⟨c, hc, rfl⟩ := hv
  exact h c.1 c.2 (mem_boxCoords b c hc)

theorem regionValues_ne_nil (f : ℕ → ℕ → ℚ) (b : Box)
    (hx : b.x0 ≤ b.x1) (hy : b.y0 ≤ b.y1) : regionValues f b ≠ [] := by
  simp only [regionValues, ne_eq, List.map_eq_nil_iff]
  exact boxCoords_ne_nil b hx hy

/-! ## Claim theorems C1-C4 -/

/-- C1: for a plane whose overscan region (overscanBBox) is uniformly O,
overscanCorrection with fitType MEAN or MEDIAN succeeds and subtracts
exactly O from every pixel, so a data pixel of value V becomes exactly
V - O (10 and 2 give 8 in the concrete test scenario). -/
theorem c1_overscan_uniform_mean_median (mi : MaskedImage) (b : Box)
    (O : ℚ) (ft : String)
    (hft : ft = "MEAN" ∨ ft = "MEDIAN")
    (hx : b.x0 ≤ b.x1) (hy : b.y0 ≤ b.y1)
    (hO : ∀ x y, b.containsPt x y → mi.image x y = O) :
    ∃ mi2, overscanCorrection mi b ft "overscan" 1 = .ok mi2 ∧
      ∀ x y V, mi.image x y = V → mi2.image x y = V - O := by
  have hval : ∀ v ∈ regionValues mi.image b, v = O := regionValues_const _ _ _ hO
  have hne : regionValues mi.image b ≠ [] := regionValues_ne_nil _ _ hx hy
  rcases hft with hft | hft
  · refine ⟨subScalar mi (meanOf (regionValues mi.image b)), ?_, ?_⟩
    · rw [hft, overscanCorrection, if_pos rfl]
    · intro x y V hV
      simp [subScalar, hV, meanOf_const _ O hne hval]
  · refine ⟨subScalar mi (medianOf (regionValues mi.image b)), ?_, ?_⟩
    · rw [hft]
      rfl
    · intro x y V hV
      simp [subScalar, hV, medianOf_const _ O hne hval]

/-- Witness for C1: the concrete scenario with MEAN and with MEDIAN. -/
theorem c1_overscan_uniform_mean_median_witness :
    (∃ mi2, overscanCorrection overscanTestExposure overscanTestBox "MEAN"
        "overscan" 1 = .ok mi2 ∧
      ∀ x y V, overscanTestExposure.image x y = V → mi2.image x y = V - 2) ∧
    (∃ mi2, overscanCorrection overscanTestExposure overscanTestBox "MEDIAN"
        "overscan" 1 = .ok mi2 ∧
      ∀ x y V, overscanTestExposure.image x y = V → mi2.image x y = V - 2) := by
  constructor
  · exact c1_overscan_uniform_mean_median overscanTestExposure overscanTestBox
      2 "MEAN" (Or.inl rfl) (by decide) (by decide)
      (fun x y h => by
        simp only [overscanTestExposure, overscanTestBox] at h ⊢
        rw [if_pos h.1])
  · exact c1_overscan_uniform_mean_median overscanTestExposure overscanTestBox
      2 "MEDIAN" (Or.inr rfl) (by decide) (by decide)
      (fun x y h => by
        simp only [overscanTestExposure, overscanTestBox] at h ⊢
        rw [if_pos h.1])

/-- C2 (code bug): the repository's own test testPolyOverscanCorrection
expects POLY, CHEB and LEG order-1 fits to be subtracted exactly, but
overscanCorrection raises the not-implemented LsstException for POLY and
the invalid-overscan-type LsstException for CHEB and LEG, so no fit is
ever computed or subtracted. -/
theorem c2_overscan_poly_cheb_leg_raise (mi : MaskedImage) (b : Box) :
    overscanCorrection mi b "POLY" "overscan" 1 = .error .unsupportedOperation ∧
    overscanCorrection mi b "CHEB" "overscan" 1 = .error .unknownFitType ∧
    overscanCorrection mi b "LEG" "overscan" 1 = .error .unknownFitType := by
  refine ⟨?_, ?_, ?_⟩ <;> rfl

/-- C3: every fitType string outside the spec's supported set
(MEAN, MEDIAN, MEDIAN_PER_ROW, POLY, CHEB, LEG, NATURAL_SPLINE,
CUBIC_SPLINE, AKIMA_SPLINE) reaches the final else branch of
overscanCorrection and raises the invalid-overscan-type LsstException
(the spec's UnknownFitTypeError). -/
theorem c3_overscan_unknown_fittype (mi : MaskedImage) (b : Box) (s : String)
    (h : s ∉ ["MEAN", "MEDIAN", "MEDIAN_PER_ROW", "POLY", "CHEB", "LEG",
      "NATURAL_SPLINE", "CUBIC_SPLINE", "AKIMA_SPLINE"]) :
    overscanCorrection mi b s "overscan" 1 = .error .unknownFitType := by
  simp only [List.mem_cons, List.not_mem_nil, or_false, not_or] at h
  obtain ⟨h1, h2, _, h4, _⟩ := h
  simp [overscanCorrection, h1, h2, h4]

/-- Witness for C3: the unrecognized string GAUSSIAN raises the
invalid-overscan-type error on the concrete test exposure. -/
theorem c3_overscan_unknown_fittype_witness :
    overscanCorrection overscanTestExposure overscanTestBox "GAUSSIAN"
      "overscan" 1 = .error .unknownFitType :=
  c3_overscan_unknown_fittype overscanTestExposure overscanTestBox "GAUSSIAN"
    (by decide)

/-- C4: whenever overscanCorrection succeeds (fitType MEAN or MEDIAN), the
model value is subtracted from the image plane and the mask plane and
variance plane are bitwise unchanged. -/
theorem c4_overscan_preserves_mask_variance (mi : MaskedImage) (b : Box)
    (ft : String) (hft : ft = "MEAN" ∨ ft = "MEDIAN") :
    ∃ offset mi2, overscanCorrection mi b ft "overscan" 1 = .ok mi2 ∧
      (∀ x y, mi2.mask x y = mi.mask x y) ∧
      (∀ x y, mi2.variance x y = mi.variance x y) ∧
      (∀ x y, mi2.image x y = mi.image x y - offset) := by
  rcases hft with hft | hft
  · exact ⟨meanOf (regionValues mi.image b), subScalar mi _,
      by rw [hft]; rfl, fun _ _ => rfl, fun _ _ => rfl, fun _ _ => rfl⟩
  · exact ⟨medianOf (regionValues mi.image b), subScalar mi _,
      by rw [hft]; rfl, fun _ _ => rfl, fun _ _ => rfl, fun _ _ => rfl⟩

/-- Witness for C4: the concrete test exposure with fitType MEAN. -/
theorem c4_overscan_preserves_mask_variance_witness :
    ∃ offset mi2, overscanCorrection overscanTestExposure overscanTestBox
        "MEAN" "overscan" 1 = .ok mi2 ∧
      (∀ x y, mi2.mask x y = overscanTestExposure.mask x y) ∧
      (∀ x y, mi2.variance x y = overscanTestExposure.variance x y) ∧
      (∀ x y, mi2.image x y = overscanTestExposure.image x y - offset) :=
  c4_overscan_preserves_mask_variance overscanTestExposure overscanTestBox
    "MEAN" (Or.inl rfl)

theorem imageValues_flatCexFlat :
    imageValues flatCexFlat = [1, 1, 1, 1, 1, 1, 1, 1, 1, 1, 12] := by
  decide

/-- C5 counterexample: on flatCexFlat with mode MEAN, the code computes
flatscaling 2, the unclipped mean, not the clipped mean 1 claimed by the
spec, so the claimed scaling disagrees with the code at this input. -/
theorem c5_counterexample :
    flatScalingOf flatCexFlat "MEAN" 1 = .ok 2 ∧
      clippedMean (imageValues flatCexFlat) 3 3 = 1 ∧ (2 : ℚ) ≠ 1 := by
  refine ⟨?_, ?_, by norm_num⟩
  · rw [flatScalingOf, if_pos rfl, imageValues_flatCexFlat]
    norm_num [meanOf, listSum]
  · rw [imageValues_flatCexFlat]
    norm_num [clippedMean, clipIter, clipOnce, meanOf, sampleVar, listSum,
      List.filter]

/-- C5 (amended): flatCorrection computes flatScaling as the unclipped mean
of the flat image for MEAN, the unclipped median for MEDIAN, the
user-supplied scale verbatim for USER, then divides the science image
element-wise by flatScaling inverse times the flat image; every other
scalingMode raises the spec's UnknownScalingModeError. -/
theorem c5_flat_scaling_modes (exposure flat : MaskedImage) (sc : ℚ)
    (mode : String) :
    (mode = "MEAN" → ∃ out, flatCorrection exposure flat mode sc = .ok out ∧
      ∀ x y, out.image x y =
        exposure.image x y / ((meanOf (imageValues flat))⁻¹ * flat.image x y)) ∧
    (mode = "MEDIAN" → ∃ out, flatCorrection exposure flat mode sc = .ok out ∧
      ∀ x y, out.image x y =
        exposure.image x y / ((medianOf (imageValues flat))⁻¹ * flat.image x y)) ∧
    (mode = "USER" → ∃ out, flatCorrection exposure flat mode sc = .ok out ∧
      ∀ x y, out.image x y = exposure.image x y / (sc⁻¹ * flat.image x y)) ∧
    (mode ∉ ["MEAN", "MEDIAN", "USER"] →
      flatCorrection exposure flat mode sc = .error .unknownScalingMode) := by
  refine ⟨?_, ?_, ?_, ?_⟩
  · rintro rfl
    exact ⟨_, rfl, fun x y => by simp [scaledDivides, one_div]⟩
  · rintro rfl
    exact ⟨_, rfl, fun x y => by simp [scaledDivides, one_div]⟩
  · rintro rfl
    exact ⟨_, rfl, fun x y => by simp [scaledDivides, one_div]⟩
  · intro h
    simp only [List.mem_cons, List.not_mem_nil, or_false, not_or] at h
    obtain ⟨h1, h2, h3⟩ := h
    simp [flatCorrection, flatScalingOf, h1, h2, h3]

/-- Witness for C5: each mode exercised on the concrete flat frame. -/
theorem c5_flat_scaling_modes_witness :
    (∃ out, flatCorrection overscanTestExposure flatCexFlat "MEAN" 1 = .ok out ∧
      ∀ x y, out.image x y = overscanTestExposure.image x y /
        ((meanOf (imageValues flatCexFlat))⁻¹ * flatCexFlat.image x y)) ∧
    (∃ out, flatCorrection overscanTestExposure flatCexFlat "MEDIAN" 1 = .ok out ∧
      ∀ x y, out.image x y = overscanTestExposure.image x y /
        ((medianOf (imageValues flatCexFlat))⁻¹ * flatCexFlat.image x y)) ∧
    (∃ out, flatCorrection overscanTestExposure flatCexFlat "USER" 1 = .ok out ∧
      ∀ x y, out.image x y = overscanTestExposure.image x y /
        ((1 : ℚ)⁻¹ * flatCexFlat.image x y)) ∧
    flatCorrection overscanTestExposure flatCexFlat "FOO" 1 =
      .error .unknownScalingMode := by
  refine ⟨?_, ?_, ?_, ?_⟩
  · exact (c5_flat_scaling_modes overscanTestExposure flatCexFlat 1 "MEAN").1 rfl
  · exact (c5_flat_scaling_modes overscanTestExposure flatCexFlat 1 "MEDIAN").2.1 rfl
  · exact (c5_flat_scaling_modes overscanTestExposure flatCexFlat 1 "USER").2.2.1 rfl
  · exact (c5_flat_scaling_modes overscanTestExposure flatCexFlat 1 "FOO").2.2.2
      (by decide)

theorem imageValues_interpCexExposure :
    imageValues interpCexExposure = [0, 0, 0, 4] := by decide

theorem excludedValues_interpCexExposure :
    ((gridCoords interpCexExposure.width interpCexExposure.height).filter
      (fun c => interpCexExposure.mask c.1 c.2 &&& 1 = 0)).map
        (fun c => interpCexExposure.image c.1 c.2) = [0, 0, 0] := by decide

/-- C6 counterexample: with no fallback supplied, interpolateDefectList
computes the clipped mean over the entire image plane with no mask
exclusion (value 1 here), not the claimed clipped mean excluding
defect/bad/saturated pixels (value 0 here). -/
theorem c6_counterexample :
    (interpolateDefectList interpCexExposure [] 2 .none).fallbackValue = 1 ∧
      claimFallbackExcludingMasked interpCexExposure 1 = 0 ∧ (1 : ℚ) ≠ 0 := by
  refine ⟨?_, ?_, by norm_num⟩
  · show clippedMean (imageValues interpCexExposure) 3 3 = 1
    rw [imageValues_interpCexExposure]
    norm_num [clippedMean, clipIter, clipOnce, meanOf, sampleVar, listSum,
      List.filter]
  · rw [claimFallbackExcludingMasked, excludedValues_interpCexExposure]
    norm_num [clippedMean, clipIter, clipOnce, meanOf, sampleVar, listSum,
      List.filter]

/-- C6 (amended): for every nonnegative fwhm the interpolation kernel is
4*floor(fwhm)+1 on a side; when no fallbackValue is supplied the
fallback is computed once per call as the clipped mean of the entire
image plane with no mask-based exclusion, and that single scalar is
carried by the one interpolateOverDefects call; a supplied fallbackValue
is passed through verbatim. -/
theorem c6_kernel_size_and_fallback (mi : MaskedImage) (defects : List Box)
    (fwhm : ℚ) (h : 0 ≤ fwhm) :
    (interpolateDefectList mi defects fwhm .none).psf.ksize = 4 * ⌊fwhm⌋ + 1 ∧
    (interpolateDefectList mi defects fwhm .none).fallbackValue =
      clippedMean (imageValues mi) 3 3 ∧
    ∀ fb, (interpolateDefectList mi defects fwhm (some fb)).fallbackValue = fb := by
  refine ⟨?_, rfl, fun fb => rfl⟩
  show 4 * pyInt fwhm + 1 = 4 * ⌊fwhm⌋ + 1
  rw [pyInt, Rat.floor_def,
    Int.tdiv_eq_ediv (Rat.num_nonneg.mpr h) (Int.ofNat_nonneg _)]

/-- Witness for C6: the concrete exposure with fwhm 2 and no fallback. -/
theorem c6_kernel_size_and_fallback_witness :
    (interpolateDefectList interpCexExposure [] 2 .none).psf.ksize =
        4 * ⌊(2 : ℚ)⌋ + 1 ∧
    (interpolateDefectList interpCexExposure [] 2 .none).fallbackValue =
      clippedMean (imageValues interpCexExposure) 3 3 ∧
    ∀ fb, (interpolateDefectList interpCexExposure [] 2 (some fb)).fallbackValue
      = fb :=
  c6_kernel_size_and_fallback interpCexExposure [] 2 (by decide)

/-! ## Supporting lemmas for footprints -/

theorem nat_lor_self (n : ℕ) : n ||| n = n := by
  apply Nat.eq_of_testBit_eq
  intro i
  simp [Nat.testBit_or]

theorem mem_gridCoords (w h : ℕ) (c : ℕ × ℕ) :
    c ∈ gridCoords w h ↔ c.1 < w ∧ c.2 < h := by
  constructor
  · intro hc
    simp only [gridCoords, List.mem_flatMap, List.mem_map, List.mem_range] at hc
    obtain ⟨x, hx, y, hy, rfl⟩ := hc
    exact ⟨hx, hy⟩
  · intro ⟨h1, h2⟩
    simp only [gridCoords, List.mem_flatMap, List.mem_map, List.mem_range]
    exact ⟨c.1, h1, c.2, h2, rfl⟩

theorem mem_abovePixels (mi : MaskedImage) (T : ℚ) (c : ℕ × ℕ) :
    c ∈ abovePixels mi T ↔
      c.1 < mi.width ∧ c.2 < mi.height ∧ T ≤ mi.image c.1 c.2 := by
  simp only [abovePixels, List.mem_filter, mem_gridCoords, decide_eq_true_eq]
  tauto

theorem exists_mem_addPixel (cs : List (List (ℕ × ℕ))) (p q : ℕ × ℕ) :
    (∃ c ∈ addPixel cs p, q ∈ c) ↔ q = p ∨ ∃ c ∈ cs, q ∈ c := by
  simp only [addPixel, List.partition_eq_filter_filter]
  constructor
  · rintro ⟨c, hc, hq⟩
    rw [List.mem_cons] at hc
    rcases hc with rfl | hc
    · rw [List.mem_cons] at hq
      rcases hq with rfl | hq
      · exact Or.inl rfl
      · rw [List.mem_flatten] at hq
        obtain ⟨c, hc, hqc⟩ := hq
        exact Or.inr ⟨c, (List.mem_filter.mp hc).1, hqc⟩
    · exact Or.inr ⟨c, (List.mem_filter.mp hc).1, hq⟩
  · rintro (rfl | ⟨c, hc, hq⟩)
    · exact ⟨_, List.mem_cons_self _ _, List.mem_cons_self _ _⟩
    · by_cases hf : c.any (fun r => adj4 p r)
      · refine ⟨_, List.mem_cons_self _ _, List.mem_cons_of_mem _ ?_⟩
        rw [List.mem_flatten]
        exact ⟨c, List.mem_filter.mpr ⟨hc, hf⟩, hq⟩
      · refine ⟨c, List.mem_cons_of_mem _ (List.mem_filter.mpr ⟨hc, ?_⟩), hq⟩
        simpa using hf

theorem exists_mem_components_aux (ps : List (ℕ × ℕ)) (q : ℕ × ℕ) :
    ∀ cs0, (∃ c ∈ ps.foldl addPixel cs0, q ∈ c) ↔
      q ∈ ps ∨ ∃ c ∈ cs0, q ∈ c := by
  induction ps with
  | nil => intro cs0; simp
  | cons p ps ih =>
    intro cs0
    rw [List.foldl_cons, ih (addPixel cs0 p), exists_mem_addPixel,
      List.mem_cons]
    tauto

theorem exists_mem_connectedComponents (ps : List (ℕ × ℕ)) (q : ℕ × ℕ) :
    (∃ c ∈ connectedComponents ps, q ∈ c) ↔ q ∈ ps := by
  rw [connectedComponents, exists_mem_components_aux]
  simp

theorem saturationDetection_mask_fold (fps : List (List (ℕ × ℕ)))
    (satBit : ℕ) (x y : ℕ) :
    ∀ (e : MaskedImage) (l : List (List Box)),
      ((fps.foldl
        (fun acc fp =>
          let mi := if true then
              { acc.1 with mask := setMaskFromFootprint acc.1.mask fp satBit }
            else acc.1
          (mi, acc.2 ++ [footprintToBBoxList fp]))
        (e, l)).1).mask x y =
      if ∃ fp ∈ fps, (x, y) ∈ fp then e.mask x y ||| satBit
      else e.mask x y := by
  induction fps with
  | nil => intro e l; simp
  | cons fp fps ih =>
    intro e l
    rw [List.foldl_cons]
    refine Eq.trans (ih { e with mask := setMaskFromFootprint e.mask fp satBit }
      (l ++ [footprintToBBoxList fp])) ?_
    simp only [setMaskFromFootprint]
    by_cases h1 : (x, y) ∈ fp
    · rw [if_pos h1]
      by_cases h2 : ∃ c ∈ fps, (x, y) ∈ c
      · rw [if_pos h2, if_pos ⟨fp, List.mem_cons_self _ _, h1⟩,
          Nat.lor_assoc, nat_lor_self]
      · rw [if_neg h2, if_pos ⟨fp, List.mem_cons_self _ _, h1⟩]
    · rw [if_neg h1]
      by_cases h2 : ∃ c ∈ fps, (x, y) ∈ c
      · obtain ⟨c, hc, hq⟩ := h2
        rw [if_pos ⟨c, hc, hq⟩, if_pos ⟨c, List.mem_cons_of_mem _ hc, hq⟩]
      · rw [if_neg h2, if_neg ?_]
        rintro ⟨c, hc, hq⟩
        rw [List.mem_cons] at hc
        rcases hc with rfl | hc
        · exact h1 hq
        · exact h2 ⟨c, hc, hq⟩

/-- C7: on a plane with an all-zero mask, no pixel exactly at the threshold,
and exactly one connected over-threshold region, saturationDetection
sets the saturation bit on exactly the over-threshold pixels and leaves
every other in-bounds pixel's mask at 0. -/
theorem c7_saturation_detection_exact (mi : MaskedImage) (T : ℚ) (satBit : ℕ)
    (hmask : ∀ x y, x < mi.width → y < mi.height → mi.mask x y = 0)
    (hne : ∀ x y, x < mi.width → y < mi.height → mi.image x y ≠ T)
    (hone : (connectedComponents (abovePixels mi T)).length = 1) :
    ∀ x y, x < mi.width → y < mi.height →
      (saturationDetection mi T true satBit).1.mask x y =
        if T < mi.image x y then satBit else 0 := by
  intro x y hx hy
  have hfold : (saturationDetection mi T true satBit).1.mask x y =
      if ∃ fp ∈ connectedComponents (abovePixels mi T), (x, y) ∈ fp
      then mi.mask x y ||| satBit else mi.mask x y :=
    saturationDetection_mask_fold (connectedComponents (abovePixels mi T))
      satBit x y mi []
  rw [hfold, hmask x y hx hy]
  by_cases hab : (x, y) ∈ abovePixels mi T
  · have hmem := (exists_mem_connectedComponents (abovePixels mi T) (x, y)).mpr hab
    have hT : T ≤ mi.image x y := ((mem_abovePixels mi T (x, y)).mp hab).2.2
    rw [if_pos hmem, if_pos (lt_of_le_of_ne hT (Ne.symm (hne x y hx hy)))]
    exact Nat.zero_or satBit
  · have hmem : ¬ ∃ fp ∈ connectedComponents (abovePixels mi T), (x, y) ∈ fp :=
      fun hc => hab ((exists_mem_connectedComponents (abovePixels mi T) (x, y)).mp hc)
    rw [if_neg hmem,
      if_neg (fun hT => hab ((mem_abovePixels mi T (x, y)).mpr
        ⟨hx, hy, le_of_lt hT⟩))]

/-- Witness for C7: the concrete 3 x 3 plane at threshold 100 with bit 2,
checked at the saturated pixel (1,1) and the background pixel (0,0). -/
theorem c7_saturation_detection_exact_witness :
    (saturationDetection satTestExposure 100 true 2).1.mask 1 1 =
        (if (100 : ℚ) < satTestExposure.image 1 1 then 2 else 0) ∧
    (saturationDetection satTestExposure 100 true 2).1.mask 0 0 =
        (if (100 : ℚ) < satTestExposure.image 0 0 then 2 else 0) :=
  ⟨c7_saturation_detection_exact satTestExposure 100 2
    (fun _ _ _ _ => rfl)
    (fun x y hx hy => by
      simp only [satTestExposure] at hx hy ⊢
      interval_cases x <;> interval_cases y <;> decide)
    (by decide) 1 1 (by decide) (by decide),
   c7_saturation_detection_exact satTestExposure 100 2
    (fun _ _ _ _ => rfl)
    (fun x y hx hy => by
      simp only [satTestExposure] at hx hy ⊢
      interval_cases x <;> interval_cases y <;> decide)
    (by decide) 0 0 (by decide) (by decide)⟩

/-! ## Supporting lemmas for the defect round trip -/

theorem filter_eq_singleton_of {α : Type} (l : List α) (p : α → Bool) (a : α)
    (hnd : l.Nodup) (ha : a ∈ l) (hp : ∀ c ∈ l, p c = true ↔ c = a) :
    l.filter p = [a] := by
  induction l with
  | nil => cases ha
  | cons x xs ih =>
    rw [List.nodup_cons] at hnd
    rw [List.mem_cons] at ha
    rw [List.filter_cons]
    rcases ha with rfl | ha
    · rw [if_pos ((hp _ (List.mem_cons_self _ _)).mpr rfl)]
      have hnil : xs.filter p = [] := List.filter_eq_nil_iff.mpr
        (fun c hc hpc =>
          hnd.1 (((hp c (List.mem_cons_of_mem _ hc)).mp hpc) ▸ hc))
      rw [hnil]
    · have hxa : x ≠ a := fun hxa => hnd.1 (hxa ▸ ha)
      rw [if_neg (fun hpx => hxa ((hp x (List.mem_cons_self _ _)).mp hpx))]
      exact ih hnd.2 ha (fun c hc => hp c (List.mem_cons_of_mem _ hc))

theorem filter_eq_pair_of {α : Type} (l : List α) (p : α → Bool) (a b : α)
    (hab : a ≠ b) (hnd : l.Nodup) (ha : a ∈ l) (hb : b ∈ l)
    (hp : ∀ c ∈ l, p c = true ↔ (c = a ∨ c = b)) :
    l.filter p = [a, b] ∨ l.filter p = [b, a] := by
  induction l with
  | nil => cases ha
  | cons x xs ih =>
    rw [List.nodup_cons] at hnd
    rw [List.mem_cons] at ha hb
    rw [List.filter_cons]
    rcases ha with rfl | ha
    · have hbxs : b ∈ xs := by
        rcases hb with rfl | hb
        · exact absurd rfl hab
        · exact hb
      rw [if_pos ((hp _ (List.mem_cons_self _ _)).mpr (Or.inl rfl))]
      left
      have hsing : xs.filter p = [b] := filter_eq_singleton_of xs p b hnd.2 hbxs
        (fun c hc => ⟨fun hpc =>
          ((hp c (List.mem_cons_of_mem _ hc)).mp hpc).resolve_left
            (fun hca => absurd (hca ▸ hc) hnd.1),
          fun hcb => (hp c (List.mem_cons_of_mem _ hc)).mpr (Or.inr hcb)⟩)
      rw [hsing]
    · rcases hb with rfl | hb
      · rw [if_pos ((hp _ (List.mem_cons_self _ _)).mpr (Or.inr rfl))]
        right
        have hsing : xs.filter p = [a] := filter_eq_singleton_of xs p a hnd.2 ha
          (fun c hc => ⟨fun hpc =>
            ((hp c (List.mem_cons_of_mem _ hc)).mp hpc).resolve_right
              (fun hcb => absurd (hcb ▸ hc) hnd.1),
            fun hca => (hp c (List.mem_cons_of_mem _ hc)).mpr (Or.inl hca)⟩)
        rw [hsing]
      · have hxa : x ≠ a := fun hh => hnd.1 (hh ▸ ha)
        have hxb : x ≠ b := fun hh => hnd.1 (hh ▸ hb)
        rw [if_neg (fun hpx =>
          ((hp x (List.mem_cons_self _ _)).mp hpx).elim hxa hxb)]
        exact ih hnd.2 ha hb (fun c hc => hp c (List.mem_cons_of_mem _ hc))

theorem gridCoords_nodup (w h : ℕ) : (gridCoords w h).Nodup := by
  rw [gridCoords, List.nodup_flatMap]
  refine ⟨fun x _ => ?_, ?_⟩
  · exact List.Nodup.map (fun y1 y2 hy => by simpa using hy)
      (List.nodup_range h)
  · refine (List.pairwise_lt_range w).imp ?_
    intro x1 x2 hlt c hc1 hc2
    simp only [List.mem_map, List.mem_range] at hc1 hc2
    obtain ⟨y1, -, rfl⟩ := hc1
    obtain ⟨y2, -, h2⟩ := hc2
    have := congrArg Prod.fst h2
    simp only at this
    omega

theorem defectsFromPixelList_zero (ps : List (ℕ × ℕ)) (w h : ℕ) :
    defectsFromPixelList ps 0 w h =
      (connectedComponents ps).flatMap footprintToBBoxList := by
  simp [defectsFromPixelList]

/-- C8: marking only pixel (5,5) of an all-zero mask with the BAD bit and
extracting defects (no growing) yields exactly one defect at (5,5);
additionally marking the disjoint pixel (9,9) yields exactly two
defects; marking (1,1) with a disjoint SUSPECT bit leaves the BAD
defect list unchanged, and no returned defect covers (1,1). -/
theorem c8_defect_round_trip (w h : ℕ) (img var2 : ℕ → ℕ → ℚ)
    (badBit suspectBit : ℕ) (hw : 9 < w) (hh : 9 < h) (hbad : badBit ≠ 0)
    (hdisj : suspectBit &&& badBit = 0) :
    defectListFromMask ⟨w, h, img, markMask zeroMask 5 5 badBit, var2⟩ 0 badBit
        = [⟨5, 5, 5, 5⟩] ∧
    (defectListFromMask
        ⟨w, h, img, markMask (markMask zeroMask 5 5 badBit) 9 9 badBit, var2⟩
        0 badBit = [⟨5, 5, 5, 5⟩, ⟨9, 9, 9, 9⟩] ∨
      defectListFromMask
        ⟨w, h, img, markMask (markMask zeroMask 5 5 badBit) 9 9 badBit, var2⟩
        0 badBit = [⟨9, 9, 9, 9⟩, ⟨5, 5, 5, 5⟩]) ∧
    defectListFromMask
        ⟨w, h, img,
          markMask (markMask (markMask zeroMask 5 5 badBit) 9 9 badBit)
            1 1 suspectBit, var2⟩ 0 badBit =
      defectListFromMask
        ⟨w, h, img, markMask (markMask zeroMask 5 5 badBit) 9 9 badBit, var2⟩
        0 badBit ∧
    ∀ b ∈ defectListFromMask
        ⟨w, h, img,
          markMask (markMask (markMask zeroMask 5 5 badBit) 9 9 badBit)
            1 1 suspectBit, var2⟩ 0 badBit,
      ¬ b.containsPt 1 1 := by
  have h55 : ((5 : ℕ), (5 : ℕ)) ∈ gridCoords w h :=
    (mem_gridCoords w h _).mpr ⟨by omega, by omega⟩
  have h99 : ((9 : ℕ), (9 : ℕ)) ∈ gridCoords w h :=
    (mem_gridCoords w h _).mpr ⟨by omega, by omega⟩
  have e1 : maskSetPixels ⟨w, h, img, markMask zeroMask 5 5 badBit, var2⟩
      badBit = [(5, 5)] := by
    apply filter_eq_singleton_of _ _ _ (gridCoords_nodup w h) h55
    intro c _
    simp only [markMask, zeroMask, decide_eq_true_eq]
    by_cases hc : c.1 = 5 ∧ c.2 = 5
    · rw [if_pos hc, Nat.and_self]
      simp [Prod.ext_iff, hc.1, hc.2, hbad]
    · rw [if_neg hc, Nat.zero_and]
      simp only [ne_eq, not_true_eq_false, false_iff]
      intro hceq
      exact hc (by rw [hceq]; exact ⟨rfl, rfl⟩)
  have e2 : maskSetPixels
      ⟨w, h, img, markMask (markMask zeroMask 5 5 badBit) 9 9 badBit, var2⟩
      badBit = [(5, 5), (9, 9)] ∨
    maskSetPixels
      ⟨w, h, img, markMask (markMask zeroMask 5 5 badBit) 9 9 badBit, var2⟩
      badBit = [(9, 9), (5, 5)] := by
    apply filter_eq_pair_of _ _ _ _ (by decide) (gridCoords_nodup w h) h55 h99
    intro c _
    simp only [markMask, zeroMask, decide_eq_true_eq]
    by_cases hc9 : c.1 = 9 ∧ c.2 = 9
    · rw [if_pos hc9, Nat.and_self]
      simp [Prod.ext_iff, hc9.1, hc9.2, hbad]
    · rw [if_neg hc9]
      by_cases hc5 : c.1 = 5 ∧ c.2 = 5
      · rw [if_pos hc5, Nat.and_self]
        simp [Prod.ext_iff, hc5.1, hc5.2, hbad]
      · rw [if_neg hc5, Nat.zero_and]
        simp only [ne_eq, not_true_eq_false, false_iff]
        rintro (hceq | hceq)
        · exact hc5 (by rw [hceq]; exact ⟨rfl, rfl⟩)
        · exact hc9 (by rw [hceq]; exact ⟨rfl, rfl⟩)
  have e3 : maskSetPixels
      ⟨w, h, img,
        markMask (markMask (markMask zeroMask 5 5 badBit) 9 9 badBit)
          1 1 suspectBit, var2⟩ badBit =
    maskSetPixels
      ⟨w, h, img, markMask (markMask zeroMask 5 5 badBit) 9 9 badBit, var2⟩
      badBit := by
    apply List.filter_congr
    intro c _
    simp only [markMask, zeroMask]
    by_cases hc1 : c.1 = 1 ∧ c.2 = 1
    · rw [if_pos hc1, if_neg (by omega), if_neg (by omega), hdisj,
        Nat.zero_and]
    · rw [if_neg hc1]
  have part1 : defectListFromMask
      ⟨w, h, img, markMask zeroMask 5 5 badBit, var2⟩ 0 badBit =
      [⟨5, 5, 5, 5⟩] := by
    rw [defectListFromMask, e1, defectsFromPixelList_zero]
    decide
  have part2 : defectListFromMask
      ⟨w, h, img, markMask (markMask zeroMask 5 5 badBit) 9 9 badBit, var2⟩
      0 badBit = [⟨5, 5, 5, 5⟩, ⟨9, 9, 9, 9⟩] ∨
    defectListFromMask
      ⟨w, h, img, markMask (markMask zeroMask 5 5 badBit) 9 9 badBit, var2⟩
      0 badBit = [⟨9, 9, 9, 9⟩, ⟨5, 5, 5, 5⟩] := by
    rcases e2 with e2 | e2
    · right
      rw [defectListFromMask, e2, defectsFromPixelList_zero]
      decide
    · left
      rw [defectListFromMask, e2, defectsFromPixelList_zero]
      decide
  have part3 : defectListFromMask
      ⟨w, h, img,
        markMask (markMask (markMask zeroMask 5 5 badBit) 9 9 badBit)
          1 1 suspectBit, var2⟩ 0 badBit =
      defectListFromMask
        ⟨w, h, img, markMask (markMask zeroMask 5 5 badBit) 9 9 badBit, var2⟩
        0 badBit := by
    rw [defectListFromMask, defectListFromMask, e3]
  refine ⟨part1, part2, part3, ?_⟩
  intro b hb
  rw [part3] at hb
  rcases part2 with p2 | p2 <;> rw [p2] at hb <;>
    simp only [List.mem_cons, List.not_mem_nil, or_false] at hb <;>
    rcases hb with rfl | rfl <;>
    · intro hcon
      simp [Box.containsPt] at hcon

/-- Witness for C8: a concrete 10 x 10 plane with BAD bit 1, SUSPECT bit 2,
as in tests/test_defect.py. -/
theorem c8_defect_round_trip_witness :
    defectListFromMask
        ⟨10, 10, fun _ _ => 0, markMask zeroMask 5 5 1, fun _ _ => 1⟩ 0 1
        = [⟨5, 5, 5, 5⟩] ∧
    (defectListFromMask
        ⟨10, 10, fun _ _ => 0, markMask (markMask zeroMask 5 5 1) 9 9 1,
          fun _ _ => 1⟩ 0 1 = [⟨5, 5, 5, 5⟩, ⟨9, 9, 9, 9⟩] ∨
      defectListFromMask
        ⟨10, 10, fun _ _ => 0, markMask (markMask zeroMask 5 5 1) 9 9 1,
          fun _ _ => 1⟩ 0 1 = [⟨9, 9, 9, 9⟩, ⟨5, 5, 5, 5⟩]) ∧
    defectListFromMask
        ⟨10, 10, fun _ _ => 0,
          markMask (markMask (markMask zeroMask 5 5 1) 9 9 1) 1 1 2,
          fun _ _ => 1⟩ 0 1 =
      defectListFromMask
        ⟨10, 10, fun _ _ => 0, markMask (markMask zeroMask 5 5 1) 9 9 1,
          fun _ _ => 1⟩ 0 1 ∧
    ∀ b ∈ defectListFromMask
        ⟨10, 10, fun _ _ => 0,
          markMask (markMask (markMask zeroMask 5 5 1) 9 9 1) 1 1 2,
          fun _ _ => 1⟩ 0 1,
      ¬ b.containsPt 1 1 :=
  c8_defect_round_trip 10 10 (fun _ _ => 0) (fun _ _ => 1) 1 2
    (by omega) (by omega) (by omega) (by decide)

/-- C9 (code bug): fringeCorrection always raises the not-implemented
LsstException as the spec demands, and pupilCorrection also never
returns normally, but it raises a NameError (stageName is undefined at
isr.py line 579) instead of the spec's UnsupportedOperationError. -/
theorem c9_fringe_pupil_always_raise (exposure fringe pupil : MaskedImage) :
    fringeCorrection exposure fringe = .error .unsupportedOperation ∧
    pupilCorrection exposure pupil = .error .nameError ∧
    IsrError.nameError ≠ IsrError.unsupportedOperation :=
  ⟨rfl, rfl, by decide⟩

/-! ## PropertyList lemmas -/

theorem find_in_filter_ne (l : List (String × PVal)) (k k2 : String)
    (h : k2 ≠ k) :
    (l.filter (fun e => !(e.1 == k))).find? (fun e => e.1 == k2) =
      l.find? (fun e => e.1 == k2) := by
  induction l with
  | nil => rfl
  | cons e l ih =>
    rw [List.filter_cons]
    by_cases he : e.1 = k
    · rw [if_neg (by simp [he]), ih,
        List.find?_cons_of_neg _ (by simp [he, Ne.symm h])]
    · rw [if_pos (by simp [he])]
      by_cases he2 : e.1 = k2
      · rw [List.find?_cons_of_pos _ (by simp [he2]),
          List.find?_cons_of_pos _ (by simp [he2])]
      · rw [List.find?_cons_of_neg _ (by simp [he2]),
          List.find?_cons_of_neg _ (by simp [he2]), ih]

theorem PList.get_set (m : PList) (k : String) (v : PVal) (k2 : String) :
    (m.set k v).get k2 = if k2 = k then some v else m.get k2 := by
  by_cases hk : k2 = k
  · subst hk
    rw [if_pos rfl]
    simp only [PList.get, PList.set]
    rw [List.find?_cons_of_pos _ (by simp)]
    rfl
  · rw [if_neg hk]
    simp only [PList.get, PList.set]
    rw [List.find?_cons_of_neg _ (by simp [Ne.symm hk]),
      find_in_filter_ne _ _ _ hk]

theorem PList.update_cons (m : PList) (e : String × PVal)
    (rest : List (String × PVal)) :
    m.update (e :: rest) = (m.set e.1 e.2).update rest := rfl

theorem PList.get_update (m : PList) (kvs : List (String × PVal))
    (h : (kvs.map Prod.fst).Nodup) (k : String) :
    (m.update kvs).get k =
      match kvs.find? (fun e => e.1 == k) with
      | some e => some e.2
      | Option.none => m.get k := by
  induction kvs generalizing m with
  | nil => rfl
  | cons e rest ih =>
    rw [List.map_cons, List.nodup_cons] at h
    rw [PList.update_cons, ih _ h.2]
    by_cases he : e.1 = k
    · rw [List.find?_cons_of_pos _ (by simp [he])]
      have hnone : rest.find? (fun e2 => e2.1 == k) = none := by
        rw [List.find?_eq_none]
        intro x hx hpx
        rw [beq_iff_eq] at hpx
        exact h.1 (he ▸ hpx ▸ List.mem_map_of_mem Prod.fst hx)
      rw [hnone, PList.get_set, if_pos he.symm]
    · rw [List.find?_cons_of_neg _ (by simp [he])]
      cases hfind : rest.find? (fun e2 => e2.1 == k) with
      | some e2 => rfl
      | none => rw [PList.get_set, if_neg (fun hke => he hke.symm)]

theorem PList.get_update_pl (m q : PList) (hq : q.keys.Nodup) (k : String) :
    (m.update q.entries).get k =
      match q.get k with
      | some v => some v
      | Option.none => m.get k := by
  rw [PList.get_update m q.entries hq k]
  cases hfind : q.entries.find? (fun e => e.1 == k) with
  | some e => rw [show q.get k = some e.2 from by rw [PList.get, hfind]; rfl]
  | none => rw [show q.get k = Option.none from by rw [PList.get, hfind]; rfl]

theorem PList.keys_set_nodup (m : PList) (k : String) (v : PVal)
    (h : m.keys.Nodup) : ((m.set k v).keys).Nodup := by
  simp only [PList.keys, PList.set, List.map_cons]
  refine List.Nodup.cons ?_ ?_
  · intro hk
    simp only [List.mem_map, List.mem_filter] at hk
    obtain ⟨e, ⟨_, hpe⟩, hek⟩ := hk
    rw [hek] at hpe
    simp at hpe
  · exact List.Nodup.sublist
      (List.Sublist.map Prod.fst (List.filter_sublist m.entries)) h

theorem PList.keys_update_nodup (m : PList) (kvs : List (String × PVal))
    (h : m.keys.Nodup) : ((m.update kvs).keys).Nodup := by
  induction kvs generalizing m with
  | nil => exact h
  | cons e rest ih => exact ih _ (PList.keys_set_nodup m e.1 e.2 h)

theorem PList.get_eq_none_iff (m : PList) (k : String) :
    m.get k = none ↔ k ∉ m.keys := by
  constructor
  · intro h hk
    obtain ⟨e, he, hek⟩ := List.mem_map.mp hk
    have hsome : (m.entries.find? (fun e => e.1 == k)).isSome = true :=
      List.find?_isSome.mpr ⟨e, he, by simp [hek]⟩
    rw [PList.get] at h
    cases hfind : m.entries.find? (fun e => e.1 == k) with
    | some e2 =>
      rw [hfind] at h
      exact absurd h (by simp)
    | none =>
      rw [hfind] at hsome
      exact absurd hsome (by simp)
  · intro hk
    rw [PList.get, List.find?_eq_none.mpr ?_]
    · rfl
    · intro x hx hpx
      exact hk (List.mem_map.mpr ⟨x, hx, beq_iff_eq.mp hpx⟩)

theorem PList.mapEqv_iff (m1 m2 : PList) :
    PList.mapEqv m1 m2 = true ↔ ∀ k, m1.get k = m2.get k := by
  rw [PList.mapEqv, List.all_eq_true]
  constructor
  · intro hall k
    by_cases hk : k ∈ m1.keys ++ m2.keys
    · exact beq_iff_eq.mp (hall k hk)
    · rw [List.mem_append, not_or] at hk
      rw [(PList.get_eq_none_iff m1 k).mpr hk.1,
        (PList.get_eq_none_iff m2 k).mpr hk.2]
  · intro h k _
    exact beq_iff_eq.mpr (h k)

theorem initMetadata_get (k : String) :
    initMetadata.get k =
      if k = "OBSTYPE" then some (.str "IsrProvenance")
      else if k = "IsrProvenance_SCHEMA" then some (.str "NO SCHEMA")
      else if k = "IsrProvenance_VERSION" then some (.int 0)
      else none := by
  simp only [initMetadata, PList.get]
  by_cases h1 : k = "OBSTYPE"
  · rw [if_pos h1, List.find?_cons_of_pos _ (by simp [h1])]
    rfl
  · rw [if_neg h1, List.find?_cons_of_neg _ (by simp [Ne.symm h1])]
    by_cases h2 : k = "IsrProvenance_SCHEMA"
    · rw [if_pos h2, List.find?_cons_of_pos _ (by simp [h2])]
      rfl
    · rw [if_neg h2, List.find?_cons_of_neg _ (by simp [Ne.symm h2])]
      by_cases h3 : k = "IsrProvenance_VERSION"
      · rw [if_pos h3, List.find?_cons_of_pos _ (by simp [h3])]
        rfl
      · rw [if_neg h3, List.find?_cons_of_neg _ (by simp [Ne.symm h3])]
        rfl

theorem dateEntries_get (d : DateStamp) (k : String) :
    (dateEntries d).get k =
      if k = "CALIBDATE" then some (.str d.isoDateTime)
      else if k = "CALIB_CREATION_DATE" then some (.str d.isoDate)
      else if k = "CALIB_CREATION_TIME" then some (.str d.isoTime)
      else none := by
  simp only [dateEntries, PList.get]
  by_cases h1 : k = "CALIBDATE"
  · rw [if_pos h1, List.find?_cons_of_pos _ (by simp [h1])]
    rfl
  · rw [if_neg h1, List.find?_cons_of_neg _ (by simp [Ne.symm h1])]
    by_cases h2 : k = "CALIB_CREATION_DATE"
    · rw [if_pos h2, List.find?_cons_of_pos _ (by simp [h2])]
      rfl
    · rw [if_neg h2, List.find?_cons_of_neg _ (by simp [Ne.symm h2])]
      by_cases h3 : k = "CALIB_CREATION_TIME"
      · rw [if_pos h3, List.find?_cons_of_pos _ (by simp [h3])]
        rfl
      · rw [if_neg h3, List.find?_cons_of_neg _ (by simp [Ne.symm h3])]
        rfl

theorem listSetEqv_dedup (l : List String) : listSetEqv l.dedup l = true := by
  rw [listSetEqv, Bool.and_eq_true, List.all_eq_true, List.all_eq_true]
  constructor
  · intro a ha
    exact decide_eq_true_eq.mpr (List.mem_dedup.mp ha)
  · intro a ha
    exact decide_eq_true_eq.mpr (List.mem_dedup.mpr ha)

theorem updateMetadataOp_metadata (p : IsrProvenance) (sd : Bool)
    (date : DateStamp) (kwargs : PList) :
    (p.updateMetadataOp sd date kwargs).metadata =
      ((p.metadata.set "DETECTOR" p.detectorName).set "DETECTOR_SERIAL"
        p.detectorSerial).update
        (((if sd then dateEntries date else ⟨[]⟩).update
          (provKwargs p kwargs).entries).entries) := rfl

theorem updateMetadataOp_fields (p : IsrProvenance) (sd : Bool)
    (date : DateStamp) (kwargs : PList) :
    (p.updateMetadataOp sd date kwargs).detectorName = p.detectorName ∧
    (p.updateMetadataOp sd date kwargs).detectorSerial = p.detectorSerial ∧
    (p.updateMetadataOp sd date kwargs).instrument = p.instrument ∧
    (p.updateMetadataOp sd date kwargs).calibType = p.calibType ∧
    (p.updateMetadataOp sd date kwargs).dimensions = p.dimensions ∧
    (p.updateMetadataOp sd date kwargs).dataIdList = p.dataIdList :=
  ⟨rfl, rfl, rfl, rfl, rfl, rfl⟩

theorem provKwargs_keys_nodup (p : IsrProvenance) (kwargs : PList)
    (hk : kwargs.keys.Nodup) : (provKwargs p kwargs).keys.Nodup :=
  PList.keys_set_nodup _ _ _ (PList.keys_set_nodup _ _ _
    (PList.keys_set_nodup _ _ _ (PList.keys_set_nodup _ _ _ hk)))

theorem provKwargs_get (p : IsrProvenance) (kwargs : PList) (k : String) :
    (provKwargs p kwargs).get k =
      if k = "calibType" then some (.str p.calibType)
      else if k = "INSTRUME" then some (.str p.instrument)
      else if k = "DETECTOR_SERIAL" then some p.detectorSerial
      else if k = "DETECTOR" then some p.detectorName
      else kwargs.get k := by
  rw [provKwargs, PList.get_set, PList.get_set, PList.get_set, PList.get_set]

theorem updateMetadata_get (p : IsrProvenance) (sd : Bool) (date : DateStamp)
    (kwargs : PList) (hk : kwargs.keys.Nodup) (k : String) :
    ((p.updateMetadataOp sd date kwargs).metadata).get k =
      if k = "calibType" then some (.str p.calibType)
      else if k = "INSTRUME" then some (.str p.instrument)
      else if k = "DETECTOR_SERIAL" then some p.detectorSerial
      else if k = "DETECTOR" then some p.detectorName
      else
        match kwargs.get k with
        | some v => some v
        | Option.none =>
          if sd then
            match (dateEntries date).get k with
            | some v => some v
            | Option.none => p.metadata.get k
          else p.metadata.get k := by
  have hkw2 : (provKwargs p kwargs).keys.Nodup := provKwargs_keys_nodup p kwargs hk
  have hsuppl : ((if sd then dateEntries date else ⟨[]⟩) : PList).keys.Nodup := by
    cases sd
    · exact List.nodup_nil
    · show ((dateEntries date).keys).Nodup
      show (["CALIBDATE", "CALIB_CREATION_DATE", "CALIB_CREATION_TIME"]).Nodup
      decide
  have hsuppl2 : (((if sd then dateEntries date else ⟨[]⟩) : PList).update
      (provKwargs p kwargs).entries).keys.Nodup :=
    PList.keys_update_nodup _ _ hsuppl
  rw [updateMetadataOp_metadata, PList.get_update_pl _ _ hsuppl2,
    PList.get_update_pl _ _ hkw2, provKwargs_get, PList.get_set, PList.get_set]
  by_cases h1 : k = "calibType"
  · simp only [if_pos h1]
  · simp only [if_neg h1]
    by_cases h2 : k = "INSTRUME"
    · simp only [if_pos h2]
    · simp only [if_neg h2]
      by_cases h3 : k = "DETECTOR_SERIAL"
      · simp only [if_pos h3]
      · simp only [if_neg h3]
        by_cases h4 : k = "DETECTOR"
        · simp only [if_pos h4]
        · simp only [if_neg h4]
          cases hkg : kwargs.get k with
          | some v => rfl
          | none =>
            cases sd
            · rfl
            · rfl

theorem updateMetadata_get_noDate (p : IsrProvenance) (kwargs : PList)
    (hk : kwargs.keys.Nodup) (k : String) :
    ((p.updateMetadataOp false noDate kwargs).metadata).get k =
      if k = "calibType" then some (.str p.calibType)
      else if k = "INSTRUME" then some (.str p.instrument)
      else if k = "DETECTOR_SERIAL" then some p.detectorSerial
      else if k = "DETECTOR" then some p.detectorName
      else
        match kwargs.get k with
        | some v => some v
        | Option.none => p.metadata.get k := by
  rw [updateMetadata_get p false noDate kwargs hk k]
  rfl

theorem updateMetadata_get_empty_noDate (p : IsrProvenance) (k : String) :
    ((p.updateMetadataOp false noDate ⟨[]⟩).metadata).get k =
      if k = "calibType" then some (.str p.calibType)
      else if k = "INSTRUME" then some (.str p.instrument)
      else if k = "DETECTOR_SERIAL" then some p.detectorSerial
      else if k = "DETECTOR" then some p.detectorName
      else p.metadata.get k := by
  rw [updateMetadata_get p false noDate ⟨[]⟩ List.nodup_nil k]
  rfl

theorem updateMetadata_get_empty_withDate (p : IsrProvenance)
    (now : DateStamp) (k : String) :
    ((p.updateMetadataOp true now ⟨[]⟩).metadata).get k =
      if k = "calibType" then some (.str p.calibType)
      else if k = "INSTRUME" then some (.str p.instrument)
      else if k = "DETECTOR_SERIAL" then some p.detectorSerial
      else if k = "DETECTOR" then some p.detectorName
      else
        match (dateEntries now).get k with
        | some v => some v
        | Option.none => p.metadata.get k := by
  rw [updateMetadata_get p true now ⟨[]⟩ List.nodup_nil k]
  rfl

theorem mkIsrProvenance_metadata_get (k : String) :
    mkIsrProvenance.metadata.get k =
      if k = "calibType" then some (.str "unknown")
      else if k = "INSTRUME" then some (.str "unknown")
      else if k = "DETECTOR_SERIAL" then some PVal.none
      else if k = "DETECTOR" then some PVal.none
      else initMetadata.get k :=
  updateMetadata_get_empty_noDate
    { detectorName := PVal.none, detectorSerial := PVal.none,
      instrument := "unknown", calibType := "unknown", dimensions := [],
      dataIdList := [], metadata := initMetadata } k

theorem fromDictOp_metadata_get (d : ProvDict) (hd : d.metadata.keys.Nodup)
    (k : String) :
    (IsrProvenance.fromDictOp d).metadata.get k =
      if k = "calibType" then some (.str d.calibType)
      else if k = "INSTRUME" then some (.str d.instrument)
      else if k = "DETECTOR_SERIAL" then some d.detectorSerial
      else if k = "DETECTOR" then some d.detectorName
      else
        match d.metadata.get k with
        | some v => some v
        | Option.none => mkIsrProvenance.metadata.get k := by
  refine Eq.trans (updateMetadata_get_empty_noDate
    { mkIsrProvenance.updateMetadataOp false noDate d.metadata with
      detectorName := d.detectorName, detectorSerial := d.detectorSerial,
      instrument := d.instrument, calibType := d.calibType,
      dimensions := pySetOfList d.dimensions,
      dataIdList := d.dataIdList } k) ?_
  by_cases h1 : k = "calibType"
  · simp only [if_pos h1]
  · simp only [if_neg h1]
    by_cases h2 : k = "INSTRUME"
    · simp only [if_pos h2]
    · simp only [if_neg h2]
      by_cases h3 : k = "DETECTOR_SERIAL"
      · simp only [if_pos h3]
      · simp only [if_neg h3]
        by_cases h4 : k = "DETECTOR"
        · simp only [if_pos h4]
        · simp only [if_neg h4]
          exact Eq.trans (updateMetadata_get_noDate mkIsrProvenance
            d.metadata hd k) (by simp only [if_neg h1, if_neg h2, if_neg h3,
              if_neg h4])

/-- Pointwise agreement of the metadata maps after the round trip. -/
theorem c10_metadata_agree (p : IsrProvenance) (now : DateStamp)
    (hnd : p.metadata.keys.Nodup)
    (h1 : (p.metadata.get "OBSTYPE").isSome = true)
    (h2 : (p.metadata.get "IsrProvenance_SCHEMA").isSome = true)
    (h3 : (p.metadata.get "IsrProvenance_VERSION").isSome = true)
    (k : String) :
    (IsrProvenance.fromDictOp (p.toDictOp now).2).metadata.get k =
      ((p.toDictOp now).1).metadata.get k := by
  have htn : ((p.updateMetadataOp true now ⟨[]⟩).metadata).keys.Nodup := by
    rw [updateMetadataOp_metadata]
    exact PList.keys_update_nodup _ _
      (PList.keys_set_nodup _ _ _ (PList.keys_set_nodup _ _ _ hnd))
  have hdmeta : (p.toDictOp now).2.metadata =
      (p.updateMetadataOp true now ⟨[]⟩).metadata := rfl
  have hchar : ∀ k2, ((p.updateMetadataOp true now ⟨[]⟩).metadata).get k2 =
      if k2 = "calibType" then some (.str p.calibType)
      else if k2 = "INSTRUME" then some (.str p.instrument)
      else if k2 = "DETECTOR_SERIAL" then some p.detectorSerial
      else if k2 = "DETECTOR" then some p.detectorName
      else
        match (dateEntries now).get k2 with
        | some v => some v
        | Option.none => p.metadata.get k2 :=
    fun k2 => updateMetadata_get_empty_withDate p now k2
  rw [fromDictOp_metadata_get (p.toDictOp now).2 (hdmeta ▸ htn) k]
  show _ = ((p.updateMetadataOp true now ⟨[]⟩).metadata).get k
  rw [hchar k]
  by_cases hk1 : k = "calibType"
  · simp only [if_pos hk1]
    rfl
  · simp only [if_neg hk1]
    by_cases hk2 : k = "INSTRUME"
    · simp only [if_pos hk2]
      rfl
    · simp only [if_neg hk2]
      by_cases hk3 : k = "DETECTOR_SERIAL"
      · simp only [if_pos hk3]
        rfl
      · simp only [if_neg hk3]
        by_cases hk4 : k = "DETECTOR"
        · simp only [if_pos hk4]
          rfl
        · simp only [if_neg hk4]
          have hdm : (p.toDictOp now).2.metadata.get k =
              ((p.updateMetadataOp true now ⟨[]⟩).metadata).get k := rfl
          rw [hdm, hchar k, if_neg hk1, if_neg hk2, if_neg hk3, if_neg hk4]
          cases hdk : (dateEntries now).get k with
          | some v => rfl
          | none =>
            cases hpk : p.metadata.get k with
            | some v => rfl
            | none =>
              rw [mkIsrProvenance_metadata_get, if_neg hk1, if_neg hk2,
                if_neg hk3, if_neg hk4, initMetadata_get]
              have hOB : k ≠ "OBSTYPE" := by
                rintro rfl
                rw [hpk] at h1
                exact absurd h1 (by simp)
              have hSC : k ≠ "IsrProvenance_SCHEMA" := by
                rintro rfl
                rw [hpk] at h2
                exact absurd h2 (by simp)
              have hVE : k ≠ "IsrProvenance_VERSION" := by
                rintro rfl
                rw [hpk] at h3
                exact absurd h3 (by simp)
              rw [if_neg hOB, if_neg hSC, if_neg hVE]

/-- C10: for every IsrProvenance whose metadata has no duplicate keys and
carries the OBSTYPE, schema and version entries that setMetadata writes
at construction, the round trip fromDict(p.toDict()) compares equal to p
under the class equality (toDict first stamps CALIBDATE into p itself,
so the comparison is against p as it stands after the call, exactly as
in Python). -/
theorem c10_provenance_round_trip (p : IsrProvenance) (now : DateStamp)
    (hnd : p.metadata.keys.Nodup)
    (h1 : (p.metadata.get "OBSTYPE").isSome = true)
    (h2 : (p.metadata.get "IsrProvenance_SCHEMA").isSome = true)
    (h3 : (p.metadata.get "IsrProvenance_VERSION").isSome = true) :
    provEqv (IsrProvenance.fromDictOp (p.toDictOp now).2) (p.toDictOp now).1
      = true := by
  simp only [provEqv, Bool.and_eq_true]
  refine ⟨⟨⟨⟨⟨⟨?_, ?_⟩, ?_⟩, ?_⟩, ?_⟩, ?_⟩, ?_⟩
  · exact beq_self_eq_true _
  · exact beq_self_eq_true _
  · exact (PList.mapEqv_iff _ _).mpr (c10_metadata_agree p now hnd h1 h2 h3)
  · exact beq_self_eq_true _
  · exact beq_self_eq_true _
  · exact listSetEqv_dedup ((p.toDictOp now).1.dimensions)
  · exact beq_self_eq_true _

/-- Witness for C10: the freshly constructed IsrProvenance round-trips. -/
theorem c10_provenance_round_trip_witness :
    provEqv (IsrProvenance.fromDictOp (mkIsrProvenance.toDictOp sampleDate).2)
      (mkIsrProvenance.toDictOp sampleDate).1 = true :=
  c10_provenance_round_trip mkIsrProvenance sampleDate
    (by decide) (by decide) (by decide) (by decide)

end IpIsr
